import Mathlib

/-!
Verification development for the PyRun worker process (`src/server.py`).

The file shallowly embeds the parts of the server that the specification's
claims are about: the value-marshaling engine (the `Format` classes and the
mutable `ANY_FORMAT` union chain), the reference table (`get_ref` /
`del_ref`), the scope store (`get_scope`), the locals decoder
(`get_local` / `get_locals`), the `jl.ret` helper, and the `do_run`
request handler.

Modelling conventions:
- Python runtime values are the inductive `PyValue`; the universe covers
  the value shapes the server manipulates (None, bool, int, str, float,
  bytes, tuple/list/set/dict, the `jl` helper module, and generic opaque
  objects `obj`).  Machine-level details that the code never relies on
  (float bit patterns, hashing) are not modelled: a float is represented
  by the string `str(value)` returns for it.
- Python exceptions are the inductive `PyErr`; `Result` (the server's
  control-flow exception) is the constructor `PyErr.result`.
- Stateful code (the reference table, `sys.modules`) is embedded by
  explicit state passing.
- Python's arbitrary-precision `int` is Lean's `Int`; `str(int)` and
  `int(str)` are modelled by executable decimal conversions below.
-/

namespace PyRun

/-! ## Definitions -/

/-! ### Decimal strings: `str(n)` and `int(s)` for Python integers -/

/-- Little-endian base-10 digits of `n`, with explicit fuel (the fuel `n`
itself always suffices since the argument shrinks by division by 10). -/
def natDigitsAux : Nat → Nat → List Nat
  | 0, _ => []
  | _ + 1, 0 => []
  | fuel + 1, n + 1 => ((n + 1) % 10) :: natDigitsAux fuel ((n + 1) / 10)

def natDigits (n : Nat) : List Nat := natDigitsAux n n

/-- Value of a little-endian digit list. -/
def valOfDigits : List Nat → Nat
  | [] => 0
  | d :: ds => d + 10 * valOfDigits ds

def digitChar (d : Nat) : Char := Char.ofNat (48 + d)

def charVal (c : Char) : Nat := c.toNat - 48

/-- Model of CPython `int(s)` on an all-digits string (no sign): `none` when
the character list is not a nonempty run of decimal digits. -/
def parseNatChars (cs : List Char) : Option Nat :=
  if cs ≠ [] ∧ cs.all (·.isDigit) then
    some (cs.foldl (fun a c => a * 10 + charVal c) 0) else none

/-- The big-endian character rendering of `n`, i.e. Python `str(n)` for a
nonnegative `n`. -/
def pyNatChars (n : Nat) : List Char :=
  if n = 0 then ['0'] else ((natDigits n).reverse).map digitChar

def pyNatStr (n : Nat) : String := String.mk (pyNatChars n)

/-- Python `str(n)` for an arbitrary integer. -/
def pyIntStr (n : Int) : String :=
  if n < 0 then "-" ++ pyNatStr n.natAbs else pyNatStr n.natAbs

/-- Model of CPython `int(s)`: an optional leading minus sign followed by
decimal digits (leading whitespace, `+`, and underscores are not modelled;
the server never produces them). -/
def pyParseIntChars (cs : List Char) : Option Int :=
  if cs.head? = some '-' then (parseNatChars cs.tail).map (fun m => -(m : Int))
  else (parseNatChars cs).map (fun m => (m : Int))

/-! ### Wire values (Format Nodes) -/

mutual
/-- A wire value: either an inlined native JSON scalar or a tagged node
of shape `t`/`v` as produced by the `_format` methods of `server.py`. -/
inductive Wire where
  | vnull
  | vbool (b : Bool)
  | vint (n : Int)
  | vstr (s : String)
  | wint (s : String)
  | wfloat (s : String)
  | wrational (num den : String)
  | wbytes (s : String)
  | wref (h : String)
  | wlist (xs : WireList)
  | wtuple (xs : WireList)
  | wset (xs : WireList)
  | wdict (es : WireDict)
  deriving DecidableEq
inductive WireList where
  | nil
  | cons (x : Wire) (xs : WireList)
  deriving DecidableEq
inductive WireDict where
  | nil
  | cons (k v : Wire) (es : WireDict)
  deriving DecidableEq
end

/-- Python exceptions raised by the embedded code.  `result` is the
server's own `Result(Exception)` control-flow class, carrying the
formatted wire value (`exc.args[0]`). -/
inductive PyErr where
  | typeError (msg : String)
  | valueError (msg : String)
  | keyError (key : String)
  | nameError (name : String)
  | attributeError (msg : String)
  | assertionError
  | syntaxError
  | result (w : Wire)
  deriving DecidableEq

/-- `type(exc).__name__`, as used by `do_run` for error responses. -/
def excTypeName : PyErr → String
  | .typeError _ => "TypeError"
  | .valueError _ => "ValueError"
  | .keyError _ => "KeyError"
  | .nameError _ => "NameError"
  | .attributeError _ => "AttributeError"
  | .assertionError => "AssertionError"
  | .syntaxError => "SyntaxError"
  | .result _ => "Result"

/-- `str(exc)`, as used by `do_run` for error responses. -/
def excStr : PyErr → String
  | .typeError m => m
  | .valueError m => m
  | .keyError k => "\x27" ++ k ++ "\x27"
  | .nameError n => "name \x27" ++ n ++ "\x27 is not defined"
  | .attributeError m => m
  | .assertionError => ""
  | .syntaxError => "invalid syntax"
  | .result _ => ""

/-! ### Runtime values -/

mutual
/-- The universe of Python runtime values the embedding covers: the value
shapes the server's formatters, decoder and executed code manipulate.
`jlModule` is the helper module `jl` (line 419), `retFunc` its bound
`ret` function, and `obj i` stands for an arbitrary object with no
special encoding support (it reaches the reference formatter). -/
inductive PyValue where
  | none
  | bool (b : Bool)
  | int (n : Int)
  | str (s : String)
  | float (s : String)
  | pybytes (bs : List Nat)
  | tuple (xs : PyList)
  | list (xs : PyList)
  | set (xs : PyList)
  | dict (es : PyDict)
  | jlModule
  | retFunc
  | obj (i : Nat)
  deriving DecidableEq
inductive PyList where
  | nil
  | cons (x : PyValue) (xs : PyList)
  deriving DecidableEq
inductive PyDict where
  | nil
  | cons (k v : PyValue) (es : PyDict)
  deriving DecidableEq
end

/-! ### Reference table (`refid`, `refs`, `get_ref`, `del_ref`) -/

/-- The process-wide reference table: the `refid` counter and the `refs`
dict, the latter embedded as a lookup function. -/
structure RefTable where
  refid : Nat
  refs : String → Option PyValue

def RefTable.init : RefTable := ⟨0, fun _ => Option.none⟩

/-- `get_ref(value)`: increment the global `refid`, store the value under
the handle `str(refid)`, return the handle. -/
def get_ref (value : PyValue) (t : RefTable) : String × RefTable :=
  let i := t.refid + 1
  let r := pyNatStr i
  (r, ⟨i, fun k => if k = r then some value else t.refs k⟩)

/-- `del_ref(r)`: `refs.pop(r, None)` — remove the entry if present, no
error if absent. -/
def del_ref (r : String) (t : RefTable) : RefTable :=
  ⟨t.refid, fun k => if k = r then Option.none else t.refs k⟩

/-! ### Scope store (`get_scope` over `sys.modules`) -/

/-- A module namespace (`module.__dict__`), as an association list kept
in insertion order. -/
abbrev PyNamespace := List (String × PyValue)

/-- The interpreter's `sys.modules` table, restricted to the modules the
claims exercise. -/
abbrev Modules := List (String × PyNamespace)

def nsGet (key : String) (ns : PyNamespace) : Option PyValue :=
  (ns.find? (fun p => p.1 == key)).map (·.2)

def nsSet (key : String) (v : PyValue) : PyNamespace → PyNamespace
  | [] => [(key, v)]
  | (k, w) :: rest => if k == key then (k, v) :: rest else (k, w) :: nsSet key v rest

def modGet (key : String) (ms : Modules) : Option PyNamespace :=
  (ms.find? (fun p => p.1 == key)).map (·.2)

def modSet (key : String) (ns : PyNamespace) : Modules → Modules
  | [] => [(key, ns)]
  | (k, w) :: rest => if k == key then (k, ns) :: rest else (k, w) :: modSet key ns rest

/-- The server module's own globals (`sys.modules` entry for
`__main__`), restricted to the binding executed code uses: the helper
module bound to the global name `jl` at line 419. -/
def mainNamespace : PyNamespace := [("jl", PyValue.jlModule)]

/-- `sys.modules` at serve time.  The real table also holds the imported
standard-library modules (here represented by `sys` and `json` with
their contents elided); what matters to scope resolution is which module
names are present — in particular no single-letter name such as `s` is. -/
def initModules : Modules :=
  [("__main__", mainNamespace), ("sys", []), ("json", [])]

/-- `get_scope(name)` (lines 38-43).  The server runs as a script, so its
`__name__` is `__main__` and a private scope `@x` maps to the reserved
module path `__main__.scopes.x`, created lazily (`type(sys)(name)`, an
empty fresh module).  Any other name is looked up as-is in
`sys.modules`; a missing key raises `KeyError`.  The embedding returns
the resolved module key together with the (possibly extended) module
table; the scope dictionary itself is `scopeDict` of the key. -/
def scopesPath (name : String) : String :=
  "__main__" ++ ".scopes." ++ String.mk (name.data.drop 1)

def get_scope (name : String) (mods : Modules) : Except PyErr (String × Modules) :=
  if name.data.head? = some '@' then
    let n := scopesPath name
    let mods' := if (modGet n mods).isSome then mods else modSet n [] mods
    .ok (n, mods')
  else
    match modGet name mods with
    | some _ => .ok (name, mods)
    | Option.none => .error (.keyError name)

def scopeDict (key : String) (mods : Modules) : PyNamespace :=
  (modGet key mods).getD []

/-! ### The formatter engine -/

/-- `except (TypeError, ValueError)` — the errors the union scan treats
as a non-fatal mismatch (line 125). -/
def nonFatalErr : PyErr → Bool
  | .typeError _ => true
  | .valueError _ => true
  | _ => false

/-- `isinstance(value, bool)`. -/
def isaBool : PyValue → Bool
  | .bool _ => true
  | _ => false

/-- `isinstance(value, str)`. -/
def isaStr : PyValue → Bool
  | .str _ => true
  | _ => false

/-- `isinstance(value, (bytes, bytearray))`. -/
def isaBytes : PyValue → Bool
  | .pybytes _ => true
  | _ => false

/-- `isinstance(value, numbers.Integral)`: Python `bool` is a subclass of
`int`, so both satisfy the Integral guard. -/
def isaIntegral : PyValue → Bool
  | .bool _ => true
  | .int _ => true
  | _ => false

/-- `isinstance(value, numbers.Rational)` over the universe (no
`fractions.Fraction` values are modelled). -/
def isaRational : PyValue → Bool
  | .bool _ => true
  | .int _ => true
  | _ => false

/-- `isinstance(value, numbers.Real)`. -/
def isaReal : PyValue → Bool
  | .bool _ => true
  | .int _ => true
  | .float _ => true
  | _ => false

/-- `isinstance(value, collections.abc.Mapping)`. -/
def isaMapping : PyValue → Bool
  | .dict _ => true
  | _ => false

/-- `isinstance(value, tuple)`. -/
def isaTuple : PyValue → Bool
  | .tuple _ => true
  | _ => false

/-- `isinstance(value, collections.abc.Sequence)`: str, bytes, tuple and
list are all Sequences. -/
def isaSequence : PyValue → Bool
  | .str _ => true
  | .pybytes _ => true
  | .tuple _ => true
  | .list _ => true
  | _ => false

/-- `isinstance(value, collections.abc.Set)`. -/
def isaSet : PyValue → Bool
  | .set _ => true
  | _ => false

def PyList.isNil : PyList → Bool
  | .nil => true
  | _ => false

def PyDict.isNil : PyDict → Bool
  | .nil => true
  | _ => false

/-- Python truthiness `bool(value)`.  A float is represented by its repr
string, so float truthiness is read off the reprs of the two falsy
floats. -/
def pyBool : PyValue → Bool
  | .none => false
  | .bool b => b
  | .int n => n != 0
  | .str s => !(s == "")
  | .float s => !(s == "0.0") && !(s == "-0.0")
  | .pybytes bs => !bs.isEmpty
  | .tuple xs => !xs.isNil
  | .list xs => !xs.isNil
  | .set xs => !xs.isNil
  | .dict es => !es.isNil
  | .jlModule => true
  | .retFunc => true
  | .obj _ => true

/-- `int(value)`.  Modelled for the integral values that reach it under
the chain's `Integral` guard and for strings (the decoder's BigInt
path); `int()` of a float is not modelled because a float value carries
only its repr string. -/
def pyIntCoerce : PyValue → Except PyErr Int
  | .bool b => .ok (if b then 1 else 0)
  | .int n => .ok n
  | .str s =>
    match pyParseIntChars s.data with
    | some i => .ok i
    | Option.none => .error (.valueError "invalid literal for int() with base 10")
  | _ => .error (.typeError "int() argument must be a string or a number")

/-! #### base64 (for the bytes node payload) -/

def base64Char (n : Nat) : Char :=
  "ABCDEFGHIJKLMNOPQRSTUVWXYZabcdefghijklmnopqrstuvwxyz0123456789+/".data.getD n '?'

def base64Chunks : List Nat → List Char
  | [] => []
  | [a] =>
    let a := a % 256
    [base64Char (a / 4), base64Char (a % 4 * 16), '=', '=']
  | [a, b] =>
    let a := a % 256
    let b := b % 256
    [base64Char (a / 4), base64Char (a % 4 * 16 + b / 16), base64Char (b % 16 * 4), '=']
  | a :: b :: c :: rest =>
    let a' := a % 256
    let b' := b % 256
    let c' := c % 256
    base64Char (a' / 4) :: base64Char (a' % 4 * 16 + b' / 16) ::
      base64Char (b' % 16 * 4 + c' / 64) :: base64Char (c' % 64) :: base64Chunks rest

/-- `base64.b64encode(bytes(value)).decode('ascii')`. -/
def base64Encode (bs : List Nat) : String := String.mk (base64Chunks bs)

/-! #### The individual `_format` rules -/

/-- A formatter's `format` callable: stateful over the reference table
(the `RefFormat` rule allocates). -/
abbrev FmtFun := PyValue → RefTable → Except PyErr Wire × RefTable

/-- `Format.format` (lines 76-80): check the configured `isa` guard (a
failing guard raises `TypeError`), then run the subclass `_format`
rule. -/
def formatWithGuard (isa : Option (PyValue → Bool)) (rule : FmtFun) : FmtFun :=
  fun value t =>
    match isa with
    | some p =>
      if p value then rule value t
      else (.error (.typeError "expecting an instance of the guard type"), t)
    | Option.none => rule value t

/-- Lift a pure `_format` rule (one that does not touch the reference
table) to a `format` callable. -/
def liftPure (f : PyValue → Except PyErr Wire) : FmtFun := fun v t => (f v, t)

/-- `NoneFormat._format` (lines 83-86). -/
def NoneFormat_format (value : PyValue) : Except PyErr Wire :=
  if value = PyValue.none then .ok .vnull else .error (.typeError "expecting None")

/-- `BoolFormat._format` (lines 89-90): `bool(value)`, a native wire
boolean. -/
def BoolFormat_format (value : PyValue) : Except PyErr Wire :=
  .ok (.vbool (pyBool value))

/-- `str(value)`.  Scalars are rendered faithfully; the repr text of
containers and opaque objects is not modelled (under the chain's
`isa=str` guard only strings reach `StrFormat._format`). -/
def pyStrOf : PyValue → String
  | .none => "None"
  | .bool b => if b then "True" else "False"
  | .int n => pyIntStr n
  | .str s => s
  | .float s => s
  | _ => "<repr not modelled>"

/-- `StrFormat._format` (lines 93-94): `str(value)`, a native wire
string. -/
def StrFormat_format (value : PyValue) : Except PyErr Wire :=
  .ok (.vstr (pyStrOf value))

/-- `BytesFormat._format` (lines 97-98): base64 of `bytes(value)`. -/
def BytesFormat_format (value : PyValue) : Except PyErr Wire :=
  match value with
  | .pybytes bs => .ok (.wbytes (base64Encode bs))
  | _ => .error (.typeError "a bytes-like object is required")

/-- `IntFormat._format` (lines 101-106): `int(value)` is inlined as a
native wire integer when `abs(value) < 1 << 20`, else boxed as a BigInt
node carrying the decimal string. -/
def IntFormat_format (value : PyValue) : Except PyErr Wire :=
  match pyIntCoerce value with
  | .error e => .error e
  | .ok n => if n.natAbs < 1 <<< 20 then .ok (.vint n) else .ok (.wint (pyIntStr n))

/-- `RationalFormat._format` (lines 109-110): `value.numerator` and
`value.denominator` as decimal strings.  Of the universe only integral
values expose the attributes (denominator 1); on anything else the
attribute access raises `AttributeError` — which is *not* one of the
scan's non-fatal errors. -/
def RationalFormat_format (value : PyValue) : Except PyErr Wire :=
  match value with
  | .bool b => .ok (.wrational (pyIntStr (if b then 1 else 0)) (pyIntStr 1))
  | .int n => .ok (.wrational (pyIntStr n) (pyIntStr 1))
  | _ => .error (.attributeError "object has no attribute numerator")

/-- `FloatFormat._format` (lines 113-115): `str(float(value))`.  A float
value carries its repr string; `float()` of an int/bool is not modelled
(in the chain those are captured by the earlier Integral-guarded
member). -/
def FloatFormat_format (value : PyValue) : Except PyErr Wire :=
  match value with
  | .float s => .ok (.wfloat s)
  | _ => .error (.typeError "float() conversion not modelled")

/-- `RefFormat._format` (lines 136-138): allocate a handle in the
reference table and wrap it in a Ref node.  Never fails. -/
def RefFormat_format (value : PyValue) (t : RefTable) : Except PyErr Wire × RefTable :=
  let (r, t') := get_ref value t
  (.ok (.wref r), t')

/-- `UnionFormat._format` (lines 121-127) over an arbitrary ordered list
of member `format` callables: try each in order; a `TypeError` or
`ValueError` advances the scan, any other exception propagates at once;
an exhausted scan raises `TypeError('cannot format this')`. -/
def unionScan (fmts : List FmtFun) (value : PyValue) (t : RefTable) :
    Except PyErr Wire × RefTable :=
  match fmts with
  | [] => (.error (.typeError "cannot format this"), t)
  | f :: rest =>
    match f value t with
    | (.ok w, t') => (.ok w, t')
    | (.error e, t') =>
      if nonFatalErr e then unionScan rest value t' else (.error e, t')

/-- One inlined step of the union scan (same semantics as `unionScan`,
used to write the `ANY_FORMAT` chain member by member). -/
def scanStep (r : Except PyErr Wire × RefTable)
    (k : RefTable → Except PyErr Wire × RefTable) : Except PyErr Wire × RefTable :=
  match r with
  | (.ok w, t) => (.ok w, t)
  | (.error e, t) => if nonFatalErr e then k t else (.error e, t)

/-- Iterating a one-character-string list out of a str (dead code under
the chain: strings are captured by the earlier `isa=str` member; kept so
the Sequence-guarded member is total on its guard). Each character
formats to a native wire string. -/
def strElemsWire (cs : List Char) : WireList :=
  match cs with
  | [] => .nil
  | c :: rest => .cons (.vstr (String.mk [c])) (strElemsWire rest)

/-- Iterating a bytes object yields small ints (all below the inlining
threshold).  Dead code under the chain for the same reason. -/
def bytesElemsWire (bs : List Nat) : WireList :=
  match bs with
  | [] => .nil
  | b :: rest => .cons (.vint ((b % 256 : Nat) : Int)) (bytesElemsWire rest)

mutual
/-- `ANY_FORMAT.format(value)`: the distinguished mutable union whose
member list is installed at lines 372-386 — NoneFormat(),
BoolFormat(isa=bool), StrFormat(isa=str), BytesFormat(isa=(bytes,
bytearray)), IntFormat(isa=Integral), RationalFormat(isa=Rational),
FloatFormat(isa=Real), DictFormat(isa=Mapping), TupleFormat(isa=tuple),
ListFormat(isa=Sequence), SetFormat(isa=Set), NDArrayFormat(isarray=True),
RefFormat() — scanned with `UnionFormat._format`'s loop, here inlined
member by member (`ANY_FORMAT` is built with no `isa`, so `format` goes
straight to the scan).  The container members' element formatters
default to `AnyFormat()`, i.e. this very union, hence the mutual
recursion. -/
def any_format (value : PyValue) (t : RefTable) : Except PyErr Wire × RefTable :=
  scanStep (liftPure NoneFormat_format value t) fun t =>
  scanStep (formatWithGuard (some isaBool) (liftPure BoolFormat_format) value t) fun t =>
  scanStep (formatWithGuard (some isaStr) (liftPure StrFormat_format) value t) fun t =>
  scanStep (formatWithGuard (some isaBytes) (liftPure BytesFormat_format) value t) fun t =>
  scanStep (formatWithGuard (some isaIntegral) (liftPure IntFormat_format) value t) fun t =>
  scanStep (formatWithGuard (some isaRational) (liftPure RationalFormat_format) value t) fun t =>
  scanStep (formatWithGuard (some isaReal) (liftPure FloatFormat_format) value t) fun t =>
  -- DictFormat(isa=Mapping), lines 140-148, key/value formatters = any
  scanStep (match value with
            | .dict es =>
              (match anyDict es t with
               | (.ok ws, t') => (.ok (.wdict ws), t')
               | (.error e, t') => (.error e, t'))
            | _ => (.error (.typeError "expecting a Mapping"), t)) fun t =>
  -- TupleFormat(isa=tuple), lines 166-182, single element formatter = any
  scanStep (match value with
            | .tuple xs =>
              (match anyList xs t with
               | (.ok ws, t') => (.ok (.wtuple ws), t')
               | (.error e, t') => (.error e, t'))
            | _ => (.error (.typeError "expecting a tuple"), t)) fun t =>
  -- ListFormat(isa=Sequence), lines 150-156, element formatter = any
  scanStep (match value with
            | .list xs =>
              (match anyList xs t with
               | (.ok ws, t') => (.ok (.wlist ws), t')
               | (.error e, t') => (.error e, t'))
            | .tuple xs =>
              (match anyList xs t with
               | (.ok ws, t') => (.ok (.wlist ws), t')
               | (.error e, t') => (.error e, t'))
            | .str s => (.ok (.wlist (strElemsWire s.data)), t)
            | .pybytes bs => (.ok (.wlist (bytesElemsWire bs)), t)
            | _ => (.error (.typeError "expecting a Sequence"), t)) fun t =>
  -- SetFormat(isa=Set), lines 158-164, element formatter = any
  scanStep (match value with
            | .set xs =>
              (match anyList xs t with
               | (.ok ws, t') => (.ok (.wset ws), t')
               | (.error e, t') => (.error e, t'))
            | _ => (.error (.typeError "expecting a Set"), t)) fun t =>
  -- NDArrayFormat(isarray=True), lines 202-232: no value of the universe
  -- exposes any of the three array-export attributes, so the probe at
  -- lines 208-214 always raises before numpy is touched
  scanStep ((.error (.typeError "not an array"), t)) fun t =>
  -- RefFormat(), lines 136-138: the terminal member, never fails
  scanStep (RefFormat_format value t) fun t =>
  (.error (.typeError "cannot format this"), t)

/-- Format every element of a list value with the any formatter,
threading the reference table (the comprehensions at lines 148, 156, 164
and 182). -/
def anyList : PyList → RefTable → Except PyErr WireList × RefTable
  | .nil, t => (.ok .nil, t)
  | .cons x xs, t =>
    match any_format x t with
    | (.ok w, t') =>
      (match anyList xs t' with
       | (.ok ws, t'') => (.ok (.cons w ws), t'')
       | (.error e, t'') => (.error e, t''))
    | (.error e, t') => (.error e, t')

/-- Format every key/value pair of a dict value with the any formatter
(line 148: the key is formatted before its value). -/
def anyDict : PyDict → RefTable → Except PyErr WireDict × RefTable
  | .nil, t => (.ok .nil, t)
  | .cons k v es, t =>
    match any_format k t with
    | (.ok wk, t1) =>
      (match any_format v t1 with
       | (.ok wv, t2) =>
         (match anyDict es t2 with
          | (.ok ws, t3) => (.ok (.cons wk wv ws), t3)
          | (.error e, t3) => (.error e, t3))
       | (.error e, t2) => (.error e, t2))
    | (.error e, t1) => (.error e, t1)
end

/-! ### The decoder (`get_local`, `get_locals`) -/

mutual
/-- `get_local(v)` (lines 430-448): reconstruct a runtime value from the
wire subset legal as input.  Native null/bool/int/str pass through; the
tagged ref/tuple/list/int/float/dict nodes recurse; any other tag hits
the `assert False` at line 448.  A Ref node is looked up in the
reference table (`refs[v]`); a missing handle raises `KeyError` — the
spec's `UnknownReference` condition.  `float(v)` keeps the source
string as the float's repr (repr normalisation is not modelled). -/
def get_local : Wire → RefTable → Except PyErr PyValue
  | .vnull, _ => .ok .none
  | .vbool b, _ => .ok (.bool b)
  | .vint n, _ => .ok (.int n)
  | .vstr s, _ => .ok (.str s)
  | .wref h, t =>
    (match t.refs h with
     | some v => .ok v
     | Option.none => .error (.keyError h))
  | .wtuple xs, t =>
    (match get_local_list xs t with
     | .ok vs => .ok (.tuple vs)
     | .error e => .error e)
  | .wlist xs, t =>
    (match get_local_list xs t with
     | .ok vs => .ok (.list vs)
     | .error e => .error e)
  | .wint s, _ =>
    (match pyParseIntChars s.data with
     | some i => .ok (.int i)
     | Option.none => .error (.valueError "invalid literal for int() with base 10"))
  | .wfloat s, _ => .ok (.float s)
  | .wdict es, t =>
    (match get_local_pairs es t with
     | .ok ds => .ok (.dict ds)
     | .error e => .error e)
  | .wrational _ _, _ => .error .assertionError
  | .wbytes _, _ => .error .assertionError
  | .wset _, _ => .error .assertionError

def get_local_list : WireList → RefTable → Except PyErr PyList
  | .nil, _ => .ok .nil
  | .cons x xs, t =>
    match get_local x t with
    | .ok v =>
      (match get_local_list xs t with
       | .ok vs => .ok (.cons v vs)
       | .error e => .error e)
    | .error e => .error e

/-- The pairs of a decoded dict node, in order (the collapsing of
duplicate keys by the Python dict display is not modelled; the server
itself never produces duplicates). -/
def get_local_pairs : WireDict → RefTable → Except PyErr PyDict
  | .nil, _ => .ok .nil
  | .cons k v es, t =>
    match get_local k t with
    | .ok dk =>
      (match get_local v t with
       | .ok dv =>
         (match get_local_pairs es t with
          | .ok ds => .ok (.cons dk dv ds)
          | .error e => .error e)
       | .error e => .error e)
    | .error e => .error e
end

def getLocalsAux (t : RefTable) : List (String × Wire) → PyNamespace → Except PyErr PyNamespace
  | [], ans => .ok ans
  | (k, w) :: rest, ans =>
    match get_local w t with
    | .ok v => getLocalsAux t rest (nsSet k v ans)
    | .error e => .error e

/-- `get_locals(lcls)` (lines 422-428): `None` stays `None`; otherwise the
locals dict starts from the binding of the helper module under the name
`jl` and then adds each decoded entry in order (a caller-supplied entry
named `jl` overwrites the helper). -/
def get_locals (lcls : Option (List (String × Wire))) (t : RefTable) :
    Except PyErr (Option PyNamespace) :=
  match lcls with
  | Option.none => .ok Option.none
  | some m =>
    match getLocalsAux t m [("jl", PyValue.jlModule)] with
    | .ok ns => .ok (some ns)
    | .error e => .error e

/-! ### Executed code

`do_run` hands the code string to `exec`.  Arbitrary Python is outside a
shallow embedding; the executed programs the claims exercise are single
expression statements over name lookup, attribute access, calls, integer
literals and left shift (`jl.ret(1<<30)` and the like), so `exec` is
embedded as a mini parser and evaluator for exactly that fragment. -/

mutual
inductive Expr where
  | name (s : String)
  | lit (n : Nat)
  | attr (e : Expr) (field : String)
  | call (f : Expr) (args : ExprList)
  | shl (a b : Expr)
  deriving DecidableEq
inductive ExprList where
  | nil
  | cons (e : Expr) (es : ExprList)
  deriving DecidableEq
end

inductive Tok where
  | ident (s : String)
  | num (n : Nat)
  | dot
  | lparen
  | rparen
  | comma
  | shl
  deriving DecidableEq

def isIdentStart (c : Char) : Bool := c.isAlpha || c == '_'

def isIdentChar (c : Char) : Bool := c.isAlphanum || c == '_'

/-- Tokenizer (fuel-indexed; the input length is always enough fuel). -/
def lexAux : Nat → List Char → Option (List Tok)
  | _, [] => some []
  | 0, _ :: _ => Option.none
  | fuel + 1, c :: rest =>
    if c == ' ' then lexAux fuel rest
    else if c == '.' then (lexAux fuel rest).map (Tok.dot :: ·)
    else if c == '(' then (lexAux fuel rest).map (Tok.lparen :: ·)
    else if c == ')' then (lexAux fuel rest).map (Tok.rparen :: ·)
    else if c == ',' then (lexAux fuel rest).map (Tok.comma :: ·)
    else if c == '<' then
      match rest with
      | '<' :: rest2 => (lexAux fuel rest2).map (Tok.shl :: ·)
      | _ => Option.none
    else if c.isDigit then
      let run := (c :: rest).takeWhile Char.isDigit
      match parseNatChars run with
      | some n => (lexAux fuel ((c :: rest).dropWhile Char.isDigit)).map (Tok.num n :: ·)
      | Option.none => Option.none
    else if isIdentStart c then
      let run := (c :: rest).takeWhile isIdentChar
      (lexAux fuel ((c :: rest).dropWhile isIdentChar)).map (Tok.ident (String.mk run) :: ·)
    else Option.none

def lexCode (s : String) : Option (List Tok) := lexAux (s.data.length + 1) s.data

mutual
/-- Postfix trailers: attribute access and calls. -/
def parsePostfixAux : Nat → Expr → List Tok → Option (Expr × List Tok)
  | 0, _, _ => Option.none
  | fuel + 1, e, ts =>
    match ts with
    | Tok.dot :: Tok.ident f :: rest => parsePostfixAux fuel (Expr.attr e f) rest
    | Tok.lparen :: Tok.rparen :: rest => parsePostfixAux fuel (Expr.call e .nil) rest
    | Tok.lparen :: rest =>
      (match parseExpr fuel rest with
       | some (a, rest2) =>
         (match parseArgsRest fuel rest2 with
          | some (args, Tok.rparen :: rest3) =>
            parsePostfixAux fuel (Expr.call e (.cons a args)) rest3
          | _ => Option.none)
       | Option.none => Option.none)
    | _ => some (e, ts)

def parseArgsRest : Nat → List Tok → Option (ExprList × List Tok)
  | 0, _ => Option.none
  | fuel + 1, ts =>
    match ts with
    | Tok.comma :: rest =>
      (match parseExpr fuel rest with
       | some (a, rest2) =>
         (match parseArgsRest fuel rest2 with
          | some (args, rest3) => some (.cons a args, rest3)
          | Option.none => Option.none)
       | Option.none => Option.none)
    | _ => some (.nil, ts)

def parseAtom : Nat → List Tok → Option (Expr × List Tok)
  | 0, _ => Option.none
  | fuel + 1, ts =>
    match ts with
    | Tok.ident s :: rest => parsePostfixAux fuel (Expr.name s) rest
    | Tok.num n :: rest => parsePostfixAux fuel (Expr.lit n) rest
    | Tok.lparen :: rest =>
      (match parseExpr fuel rest with
       | some (e, Tok.rparen :: rest2) => parsePostfixAux fuel e rest2
       | _ => Option.none)
    | _ => Option.none

def parseShiftRest : Nat → Expr → List Tok → Option (Expr × List Tok)
  | 0, _, _ => Option.none
  | fuel + 1, e, ts =>
    match ts with
    | Tok.shl :: rest =>
      (match parseAtom fuel rest with
       | some (b, rest2) => parseShiftRest fuel (Expr.shl e b) rest2
       | Option.none => Option.none)
    | _ => some (e, ts)

def parseExpr : Nat → List Tok → Option (Expr × List Tok)
  | 0, _ => Option.none
  | fuel + 1, ts =>
    match parseAtom fuel ts with
    | some (e, rest) => parseShiftRest fuel e rest
    | Option.none => Option.none
end

def parseCode (s : String) : Option Expr :=
  match lexCode s with
  | some ts =>
    (match parseExpr (2 * ts.length + 8) ts with
     | some (e, []) => some e
     | _ => Option.none)
  | Option.none => Option.none

/-- `ret(val=None, fmt='any')` (lines 388-389): format the value and
raise `Result` carrying the node — a non-local exit, never a normal
return.  The embedding covers the default formatter spec `'any'`
(`to_format('any')` is `AnyFormat()`, which is the shared
`ANY_FORMAT`). -/
def ret (val : PyValue) (t : RefTable) : Except PyErr PyValue × RefTable :=
  match any_format val t with
  | (.ok w, t') => (.error (.result w), t')
  | (.error e, t') => (.error e, t')

mutual
/-- Evaluate an expression under `exec(code, gbls, lcls)` semantics: a
name resolves in the locals mapping when one was supplied, then in the
globals namespace, else raises `NameError`.  `jl.ret` is the bound `ret`
function (line 420); calling it with no argument passes `None`
(`val=None`); calls with a formatter argument are outside the embedded
fragment. -/
def evalExpr (gbls : PyNamespace) (lcls : Option PyNamespace) :
    Expr → RefTable → Except PyErr PyValue × RefTable
  | .name s, t =>
    (match (match lcls with
            | some ns => nsGet s ns
            | Option.none => Option.none) with
     | some v => (.ok v, t)
     | Option.none =>
       match nsGet s gbls with
       | some v => (.ok v, t)
       | Option.none => (.error (.nameError s), t))
  | .lit n, t => (.ok (.int (n : Int)), t)
  | .attr e f, t =>
    (match evalExpr gbls lcls e t with
     | (.ok v, t') =>
       (match v, f with
        | .jlModule, "ret" => (.ok .retFunc, t')
        | _, _ => (.error (.attributeError ("no attribute " ++ f)), t'))
     | (.error err, t') => (.error err, t'))
  | .shl a b, t =>
    (match evalExpr gbls lcls a t with
     | (.ok va, t1) =>
       (match evalExpr gbls lcls b t1 with
        | (.ok vb, t2) =>
          (match va, vb with
           | .int x, .int y =>
             if y < 0 then (.error (.valueError "negative shift count"), t2)
             else (.ok (.int (x * 2 ^ y.toNat)), t2)
           | _, _ => (.error (.typeError "unsupported operand type for shift"), t2))
        | (.error err, t2) => (.error err, t2))
     | (.error err, t1) => (.error err, t1))
  | .call f args, t =>
    (match evalExpr gbls lcls f t with
     | (.ok vf, t1) =>
       (match evalArgs gbls lcls args t1 with
        | (.ok vs, t2) =>
          (match vf, vs with
           | .retFunc, PyList.nil => ret .none t2
           | .retFunc, PyList.cons v .nil => ret v t2
           | .retFunc, _ => (.error (.typeError "ret arguments outside the embedded fragment"), t2)
           | _, _ => (.error (.typeError "object is not callable"), t2))
        | (.error err, t2) => (.error err, t2))
     | (.error err, t1) => (.error err, t1))

def evalArgs (gbls : PyNamespace) (lcls : Option PyNamespace) :
    ExprList → RefTable → Except PyErr PyList × RefTable
  | .nil, t => (.ok .nil, t)
  | .cons e es, t =>
    match evalExpr gbls lcls e t with
    | (.ok v, t1) =>
      (match evalArgs gbls lcls es t1 with
       | (.ok vs, t2) => (.ok (.cons v vs), t2)
       | (.error err, t2) => (.error err, t2))
    | (.error err, t1) => (.error err, t1)
end

/-- `exec(code, gbls, lcls)` on the embedded fragment: parse the single
expression statement and evaluate it for effect.  A program outside the
fragment is a `SyntaxError`. -/
def execCode (code : String) (gbls : PyNamespace) (lcls : Option PyNamespace)
    (t : RefTable) : Except PyErr Unit × RefTable :=
  match parseCode code with
  | some e =>
    (match evalExpr gbls lcls e t with
     | (.ok _, t') => (.ok (), t')
     | (.error err, t') => (.error err, t'))
  | Option.none => (.error .syntaxError, t)

/-! ### The `run` request handler -/

/-- A `run` request (its `tag` field, already dispatched on by `serve`,
is elided); `locals` is the JSON mapping or null. -/
structure RunMsg where
  id : String
  scope : String
  code : String
  locals : Option (List (String × Wire))

/-- The two response shapes `do_run` can produce. -/
inductive Response where
  | result (id : String) (res : Option Wire)
  | error (id : String) (type : String) (str : String)
  deriving DecidableEq

/-- The process-wide mutable state `do_run` touches: `sys.modules` (via
`get_scope`) and the reference table. -/
structure ServerState where
  modules : Modules
  table : RefTable

def ServerState.init : ServerState := ⟨initModules, RefTable.init⟩

/-- `do_run(writer, msg)` (lines 450-474): resolve the scope, decode the
locals, `exec` the code.  A raised `Result` becomes a result response
carrying its payload, normal completion a null result response, and any
other exception an error response made of the exception's type name and
`str`.  Every response carries the request id; writing it to the stream
is elided. -/
def do_run (msg : RunMsg) (st : ServerState) : Response × ServerState :=
  match get_scope msg.scope st.modules with
  | .error e => (.error msg.id (excTypeName e) (excStr e), st)
  | .ok (key, mods') =>
    let gbls := scopeDict key mods'
    match get_locals msg.locals st.table with
    | .error e => (.error msg.id (excTypeName e) (excStr e), ⟨mods', st.table⟩)
    | .ok lcls =>
      match execCode msg.code gbls lcls st.table with
      | (.ok _, t') => (.result msg.id Option.none, ⟨mods', t'⟩)
      | (.error (.result w), t') => (.result msg.id (some w), ⟨mods', t'⟩)
      | (.error e, t') => (.error msg.id (excTypeName e) (excStr e), ⟨mods', t'⟩)

/-! ### Supporting definitions for the claim statements -/

/-- A reference-table operation: an allocation by a formatter
(`get_ref`) or a release (`del_ref`, reached from the `delref` request
or a direct call). -/
inductive RefOp where
  | alloc (v : PyValue)
  | release (h : String)

/-- Run a trace of reference-table operations from a starting table,
collecting the handles issued by the allocations in order. -/
def runRefOps : List RefOp → RefTable → List String × RefTable
  | [], t => ([], t)
  | .alloc v :: ops, t =>
    let p := get_ref v t
    let q := runRefOps ops p.2
    (p.1 :: q.1, q.2)
  | .release h :: ops, t => runRefOps ops (del_ref h t)

def numAllocs : List RefOp → Nat
  | [] => 0
  | .alloc _ :: ops => numAllocs ops + 1
  | .release _ :: ops => numAllocs ops

/-- A member formatter that always fails with a mismatch (for the C1
witness). -/
def mismatchMember : FmtFun := fun _ t => (.error (.typeError "no match"), t)

/-- A member formatter that always fails with an internal non-mismatch
error (for the C1 witness). -/
def fatalMember : FmtFun := fun _ t => (.error (.keyError "boom"), t)

/-- A member formatter that always succeeds (for the C1 witness). -/
def okMember : FmtFun := fun _ t => (.ok .vnull, t)

/-! ## Claims -/

/-! ### Decimal-string round-trip lemmas -/

theorem valOfDigits_natDigitsAux : ∀ fuel n, n ≤ fuel → valOfDigits (natDigitsAux fuel n) = n := by
  intro fuel
  induction fuel with
  | zero =>
    intro n hn
    interval_cases n
    rfl
  | succ f ih =>
    intro n hn
    match n with
    | 0 => rfl
    | m + 1 =>
      have hdiv : (m + 1) / 10 ≤ f := by
        have := Nat.div_lt_self (Nat.succ_pos m) (by norm_num : (1 : Nat) < 10)
        omega
      simp only [natDigitsAux, valOfDigits, ih _ hdiv]
      have := Nat.div_add_mod (m + 1) 10
      omega

theorem valOfDigits_natDigits (n : Nat) : valOfDigits (natDigits n) = n :=
  valOfDigits_natDigitsAux n n le_rfl

theorem natDigitsAux_lt_ten : ∀ fuel n d, d ∈ natDigitsAux fuel n → d < 10 := by
  intro fuel
  induction fuel with
  | zero => intro n d hd; simp [natDigitsAux] at hd
  | succ f ih =>
    intro n d hd
    match n with
    | 0 => simp [natDigitsAux] at hd
    | m + 1 =>
      simp only [natDigitsAux, List.mem_cons] at hd
      rcases hd with h | h
      · subst h; exact Nat.mod_lt _ (by norm_num)
      · exact ih _ _ h

theorem natDigits_ne_nil (n : Nat) (hn : 0 < n) : natDigits n ≠ [] := by
  match n, hn with
  | m + 1, _ => simp [natDigits, natDigitsAux]

theorem charVal_digitChar {d : Nat} (hd : d < 10) : charVal (digitChar d) = d := by
  interval_cases d <;> decide

theorem isDigit_digitChar {d : Nat} (hd : d < 10) : (digitChar d).isDigit = true := by
  interval_cases d <;> decide

theorem digitChar_ne_minus {d : Nat} (hd : d < 10) : digitChar d ≠ '-' := by
  interval_cases d <;> decide

theorem foldl_map_digitChar :
    ∀ (ds : List Nat) (acc : Nat), (∀ d ∈ ds, d < 10) →
      ((ds.map digitChar).foldl (fun a c => a * 10 + charVal c) acc)
        = ds.foldl (fun a d => a * 10 + d) acc := by
  intro ds
  induction ds with
  | nil => intro acc _; rfl
  | cons d rest ih =>
    intro acc hds
    have hd : d < 10 := hds d (List.mem_cons_self d rest)
    simp only [List.map_cons, List.foldl_cons, charVal_digitChar hd]
    exact ih _ (fun x hx => hds x (List.mem_cons_of_mem d hx))

theorem foldr_valOfDigits :
    ∀ ds : List Nat, ds.foldr (fun d a => a * 10 + d) 0 = valOfDigits ds := by
  intro ds
  induction ds with
  | nil => rfl
  | cons d rest ih => simp only [List.foldr_cons, valOfDigits, ih]; omega

theorem parseNatChars_pyNatChars (n : Nat) : parseNatChars (pyNatChars n) = some n := by
  by_cases h0 : n = 0
  · subst h0; decide
  · have hpos : 0 < n := Nat.pos_of_ne_zero h0
    have hne : natDigits n ≠ [] := natDigits_ne_nil n hpos
    have hlt : ∀ d ∈ (natDigits n).reverse, d < 10 := by
      intro d hd
      exact natDigitsAux_lt_ten n n d (List.mem_reverse.mp hd)
    unfold pyNatChars
    rw [if_neg h0]
    unfold parseNatChars
    rw [if_pos]
    · rw [foldl_map_digitChar _ 0 hlt, List.foldl_reverse]
      simp only [foldr_valOfDigits, valOfDigits_natDigits]
    · constructor
      · simp only [ne_eq, List.map_eq_nil_iff, List.reverse_eq_nil_iff]
        exact hne
      · rw [List.all_eq_true]
        intro c hc
        rcases List.mem_map.mp hc with ⟨d, hd, rfl⟩
        exact isDigit_digitChar (hlt d hd)

theorem pyParseIntChars_pyIntStr (n : Int) :
    pyParseIntChars (pyIntStr n).data = some n := by
  obtain ⟨c, cs, hcs, hdig⟩ : ∃ c cs, pyNatChars n.natAbs = c :: cs ∧ c.isDigit := by
    by_cases h0 : n.natAbs = 0
    · exact ⟨'0', [], by simp [pyNatChars, h0], by decide⟩
    · have hne : natDigits n.natAbs ≠ [] := natDigits_ne_nil _ (Nat.pos_of_ne_zero h0)
      unfold pyNatChars
      rw [if_neg h0]
      match hmm : (natDigits n.natAbs).reverse with
      | [] => exact absurd (List.reverse_eq_nil_iff.mp hmm) hne
      | d :: ds =>
        refine ⟨digitChar d, ds.map digitChar, by simp, ?_⟩
        have : d ∈ (natDigits n.natAbs).reverse := by rw [hmm]; exact List.mem_cons_self d ds
        exact isDigit_digitChar (natDigitsAux_lt_ten _ _ _ (List.mem_reverse.mp this))
  have hcne : c ≠ '-' := by
    intro h
    subst h
    revert hdig
    decide
  by_cases hneg : n < 0
  · have : (pyIntStr n).data = '-' :: pyNatChars n.natAbs := by
      unfold pyIntStr
      rw [if_pos hneg]
      rfl
    rw [this]
    unfold pyParseIntChars
    rw [if_pos (by simp), List.tail_cons, parseNatChars_pyNatChars]
    exact congrArg some (by beta_reduce; omega)
  · have : (pyIntStr n).data = pyNatChars n.natAbs := by
      unfold pyIntStr
      rw [if_neg hneg]
      rfl
    rw [this, hcs]
    unfold pyParseIntChars
    rw [if_neg (by simp only [List.head?_cons, Option.some.injEq]; exact hcne)]
    rw [← hcs, parseNatChars_pyNatChars]
    exact congrArg some (by beta_reduce; omega)

theorem pyNatStr_injective : Function.Injective pyNatStr := by
  intro a b hab
  have ha := parseNatChars_pyNatChars a
  have hb := parseNatChars_pyNatChars b
  have : (pyNatStr a).data = (pyNatStr b).data := by rw [hab]
  simp only [pyNatStr, String.data] at this
  rw [this, hb] at ha
  exact Option.some.inj ha.symm

/-! ### Helper lemmas -/

theorem RefTable.eq_of (a b : RefTable) (h1 : a.refid = b.refid) (h2 : a.refs = b.refs) :
    a = b := by
  cases a
  cases b
  simp_all

/-! ### C4: handle uniqueness across the process lifetime -/

theorem runRefOps_handles (ops : List RefOp) : ∀ t : RefTable,
    (runRefOps ops t).1 = (List.range' (t.refid + 1) (numAllocs ops)).map pyNatStr
    ∧ (runRefOps ops t).2.refid = t.refid + numAllocs ops := by
  induction ops with
  | nil => intro t; simp [runRefOps, numAllocs]
  | cons op rest ih =>
    intro t
    cases op with
    | alloc v =>
      have hrec := ih (get_ref v t).2
      have hrefid : (get_ref v t).2.refid = t.refid + 1 := rfl
      rw [hrefid] at hrec
      constructor
      · show (get_ref v t).1 :: (runRefOps rest (get_ref v t).2).1 = _
        rw [hrec.1]
        show pyNatStr (t.refid + 1) :: _ = _
        rw [numAllocs, List.range'_succ, List.map_cons]
      · show (runRefOps rest (get_ref v t).2).2.refid = _
        rw [hrec.2, numAllocs]
        omega
    | release h =>
      have hrec := ih (del_ref h t)
      have hrefid : (del_ref h t).refid = t.refid := rfl
      rw [hrefid] at hrec
      exact ⟨hrec.1, hrec.2⟩

/-- C4: reference handles are unique across the process lifetime.  Along
any trace of allocations and releases, the handles issued are the
decimal strings of the consecutive counter values following the starting
`refid` — a monotonically increasing numeric source that releases never
rewind — hence a trace with `N` allocations yields `N` pairwise-distinct
handle strings, and a handle released mid-trace is never reissued by a
later allocation. -/
theorem claim4_handle_uniqueness (ops : List RefOp) (t : RefTable) :
    (runRefOps ops t).1 = (List.range' (t.refid + 1) (numAllocs ops)).map pyNatStr
    ∧ (runRefOps ops t).1.Nodup := by
  refine ⟨(runRefOps_handles ops t).1, ?_⟩
  rw [(runRefOps_handles ops t).1]
  exact List.Nodup.map pyNatStr_injective (List.nodup_range' _ _ 1 Nat.one_pos)

/-! ### C5: release is idempotent -/

/-- C5: releasing a handle from the reference table removes the entry if
present, leaves every other entry and the counter untouched, never
raises (it is a total function of the table), is a no-op on a handle
that is absent — never allocated or already released — and releasing
twice leaves the table exactly as releasing once does. -/
theorem claim5_release_idempotent (h : String) (t : RefTable) :
    del_ref h (del_ref h t) = del_ref h t
    ∧ (del_ref h t).refs h = Option.none
    ∧ (∀ k, k ≠ h → (del_ref h t).refs k = t.refs k)
    ∧ (del_ref h t).refid = t.refid
    ∧ (t.refs h = Option.none → del_ref h t = t) := by
  refine ⟨?_, ?_, ?_, rfl, ?_⟩
  · refine RefTable.eq_of _ _ rfl (funext fun k => ?_)
    by_cases hk : k = h <;> simp [del_ref, hk]
  · simp [del_ref]
  · intro k hk
    simp [del_ref, hk]
  · intro hmiss
    refine RefTable.eq_of _ _ rfl (funext fun k => ?_)
    by_cases hk : k = h <;> simp [del_ref, hk]
    exact hmiss.symm

/-- Witness for C5 at the handle `1` and the initial (empty) table. -/
theorem claim5_release_idempotent_witness :
    del_ref "1" (del_ref "1" RefTable.init) = del_ref "1" RefTable.init
    ∧ (del_ref "1" RefTable.init).refs "2" = RefTable.init.refs "2"
    ∧ del_ref "1" RefTable.init = RefTable.init := by
  obtain ⟨h1, _, h3, _, h5⟩ := claim5_release_idempotent "1" RefTable.init
  exact ⟨h1, h3 "2" (by decide), h5 rfl⟩

/-! ### C2: integer encoding and the BigInt round trip -/

/-- C2: for `abs(n) < 2^20` the integer formatter inlines `n` itself as a
native wire integer (and the decoder passes it back through untouched);
for `abs(n) >= 2^20` it produces a BigInt node carrying the decimal
string of `n`, and decoding that node parses the string back to exactly
`n`. -/
theorem claim2_int_encode_roundtrip (n : Int) (t : RefTable) :
    (n.natAbs < 1 <<< 20 →
      IntFormat_format (.int n) = .ok (.vint n)
      ∧ get_local (.vint n) t = .ok (.int n))
    ∧ (1 <<< 20 ≤ n.natAbs →
      IntFormat_format (.int n) = .ok (.wint (pyIntStr n))
      ∧ get_local (.wint (pyIntStr n)) t = .ok (.int n)) := by
  constructor
  · intro hs
    exact ⟨by simp [IntFormat_format, pyIntCoerce]; omega, rfl⟩
  · intro hb
    have hnot : ¬ n.natAbs < 1 <<< 20 := not_lt.mpr hb
    refine ⟨by simp [IntFormat_format, pyIntCoerce]; omega, ?_⟩
    simp [get_local, pyParseIntChars_pyIntStr]

/-- Witness for C2 at the small integer `3` and the large integer
`2^30`. -/
theorem claim2_int_encode_roundtrip_witness :
    (IntFormat_format (.int 3) = .ok (.vint 3)
      ∧ get_local (.vint 3) RefTable.init = .ok (.int 3))
    ∧ (IntFormat_format (.int (2 ^ 30)) = .ok (.wint (pyIntStr (2 ^ 30)))
      ∧ get_local (.wint (pyIntStr (2 ^ 30))) RefTable.init = .ok (.int (2 ^ 30))) :=
  ⟨(claim2_int_encode_roundtrip 3 RefTable.init).1 (by decide),
   (claim2_int_encode_roundtrip (2 ^ 30) RefTable.init).2 (by decide)⟩

/-! ### C3: totality of the reference formatter and the any chain -/

mutual
theorem any_format_total : ∀ (v : PyValue) (t : RefTable),
    ∃ w t', any_format v t = (.ok w, t')
  | .none, t => ⟨.vnull, t, rfl⟩
  | .bool b, t => ⟨.vbool b, t, rfl⟩
  | .str s, t => ⟨.vstr s, t, rfl⟩
  | .float s, t => ⟨.wfloat s, t, rfl⟩
  | .pybytes bs, t => ⟨.wbytes (base64Encode bs), t, rfl⟩
  | .int n, t => by
      by_cases hn : n.natAbs < 1048576
      · exact ⟨.vint n, t, by simp [any_format, scanStep, formatWithGuard, liftPure,
          NoneFormat_format, BoolFormat_format, StrFormat_format, BytesFormat_format,
          IntFormat_format, pyIntCoerce, isaBool, isaStr, isaBytes, isaIntegral,
          nonFatalErr, hn]⟩
      · exact ⟨.wint (pyIntStr n), t, by simp [any_format, scanStep, formatWithGuard, liftPure,
          NoneFormat_format, BoolFormat_format, StrFormat_format, BytesFormat_format,
          IntFormat_format, pyIntCoerce, isaBool, isaStr, isaBytes, isaIntegral,
          nonFatalErr, hn]⟩
  | .tuple xs, t => by
      obtain ⟨ws, t', hws⟩ := anyList_total xs t
      exact ⟨.wtuple ws, t', by simp [any_format, scanStep, formatWithGuard, liftPure,
        NoneFormat_format, BoolFormat_format, StrFormat_format, BytesFormat_format,
        IntFormat_format, RationalFormat_format, FloatFormat_format, pyIntCoerce,
        isaBool, isaStr, isaBytes, isaIntegral, isaRational, isaReal, isaMapping,
        isaTuple, nonFatalErr, hws]⟩
  | .list xs, t => by
      obtain ⟨ws, t', hws⟩ := anyList_total xs t
      exact ⟨.wlist ws, t', by simp [any_format, scanStep, formatWithGuard, liftPure,
        NoneFormat_format, BoolFormat_format, StrFormat_format, BytesFormat_format,
        IntFormat_format, RationalFormat_format, FloatFormat_format, pyIntCoerce,
        isaBool, isaStr, isaBytes, isaIntegral, isaRational, isaReal, isaMapping,
        isaTuple, nonFatalErr, hws]⟩
  | .set xs, t => by
      obtain ⟨ws, t', hws⟩ := anyList_total xs t
      exact ⟨.wset ws, t', by simp [any_format, scanStep, formatWithGuard, liftPure,
        NoneFormat_format, BoolFormat_format, StrFormat_format, BytesFormat_format,
        IntFormat_format, RationalFormat_format, FloatFormat_format, pyIntCoerce,
        isaBool, isaStr, isaBytes, isaIntegral, isaRational, isaReal, isaMapping,
        isaTuple, isaSequence, isaSet, nonFatalErr, hws]⟩
  | .dict es, t => by
      obtain ⟨ws, t', hws⟩ := anyDict_total es t
      exact ⟨.wdict ws, t', by simp [any_format, scanStep, formatWithGuard, liftPure,
        NoneFormat_format, BoolFormat_format, StrFormat_format, BytesFormat_format,
        IntFormat_format, RationalFormat_format, FloatFormat_format, pyIntCoerce,
        isaBool, isaStr, isaBytes, isaIntegral, isaRational, isaReal, isaMapping,
        isaTuple, nonFatalErr, hws]⟩
  | .jlModule, t => ⟨.wref (get_ref .jlModule t).1, (get_ref .jlModule t).2, rfl⟩
  | .retFunc, t => ⟨.wref (get_ref .retFunc t).1, (get_ref .retFunc t).2, rfl⟩
  | .obj i, t => ⟨.wref (get_ref (.obj i) t).1, (get_ref (.obj i) t).2, rfl⟩

theorem anyList_total : ∀ (xs : PyList) (t : RefTable),
    ∃ ws t', anyList xs t = (.ok ws, t')
  | .nil, t => ⟨.nil, t, rfl⟩
  | .cons x xs, t => by
      obtain ⟨w, t1, h1⟩ := any_format_total x t
      obtain ⟨ws, t2, h2⟩ := anyList_total xs t1
      exact ⟨.cons w ws, t2, by simp [anyList, h1, h2]⟩

theorem anyDict_total : ∀ (es : PyDict) (t : RefTable),
    ∃ ws t', anyDict es t = (.ok ws, t')
  | .nil, t => ⟨.nil, t, rfl⟩
  | .cons k v es, t => by
      obtain ⟨wk, t1, h1⟩ := any_format_total k t
      obtain ⟨wv, t2, h2⟩ := any_format_total v t1
      obtain ⟨ws, t3, h3⟩ := anyDict_total es t2
      exact ⟨.cons wk wv ws, t3, by simp [anyDict, h1, h2, h3]⟩
end

/-- C3: the reference formatter is total — on every runtime value it
allocates the next fresh handle, stores the value in the reference table
under it and returns a Ref node, never failing — and consequently the
default any chain, whose terminal member it is, also succeeds on every
runtime value. -/
theorem claim3_ref_formatter_total (v : PyValue) (t : RefTable) :
    (RefFormat_format v t).1 = .ok (.wref (pyNatStr (t.refid + 1)))
    ∧ ((RefFormat_format v t).2).refs (pyNatStr (t.refid + 1)) = some v
    ∧ ((RefFormat_format v t).2).refid = t.refid + 1
    ∧ ∃ w t', any_format v t = (.ok w, t') :=
  ⟨rfl, by simp [RefFormat_format, get_ref], rfl, any_format_total v t⟩

/-! ### C10: booleans are captured before the integer member -/

/-- C10: a boolean run through the default any chain is encoded by the
bool-guarded member as a native wire boolean and never as an inlined or
boxed integer node, even though `bool` satisfies the integer member's
`Integral` guard (under which the integer rule would encode it as 0 or
1): the bool member precedes the integer member in the chain's fixed
order. -/
theorem claim10_bool_not_int (b : Bool) (t : RefTable) :
    any_format (.bool b) t = (.ok (.vbool b), t)
    ∧ isaIntegral (.bool b) = true
    ∧ IntFormat_format (.bool b) = .ok (.vint (if b then 1 else 0))
    ∧ (∀ n, Wire.vbool b ≠ Wire.vint n)
    ∧ (∀ s, Wire.vbool b ≠ Wire.wint s) := by
  refine ⟨rfl, rfl, ?_, ?_, ?_⟩
  · cases b <;> rfl
  · intro n h
    exact Wire.noConfusion h
  · intro s h
    exact Wire.noConfusion h

/-! ### C1: the union formatter scan -/

/-- C1: for every union formatter — an ordered list of member `format`
callables — and every value: (a) if every member fails with a non-fatal
mismatch (`TypeError` or `ValueError`, covering format mismatches and
value-domain errors), the scan walks all of them and the union raises
exactly `TypeError('cannot format this')`, never a member's own
exception; (b) a member failure of any other kind propagates
immediately, aborting the scan; (c) after any run of non-fatal
mismatches, the first success is returned as the union's result. -/
theorem claim1_union_scan :
    (∀ (fmts : List FmtFun) (value : PyValue) (t : RefTable),
      (∀ f ∈ fmts, ∀ t₀ : RefTable, ∃ e t₁, f value t₀ = (.error e, t₁) ∧ nonFatalErr e = true) →
      (unionScan fmts value t).1 = .error (.typeError "cannot format this"))
    ∧ (∀ (pre : List FmtFun) (f : FmtFun) (post : List FmtFun) (value : PyValue)
        (t : RefTable) (e : PyErr),
      (∀ g ∈ pre, ∀ t₀ : RefTable, ∃ e' t₁, g value t₀ = (.error e', t₁) ∧ nonFatalErr e' = true) →
      (∀ t₀ : RefTable, ∃ t₁, f value t₀ = (.error e, t₁)) →
      nonFatalErr e = false →
      (unionScan (pre ++ f :: post) value t).1 = .error e)
    ∧ (∀ (pre : List FmtFun) (f : FmtFun) (post : List FmtFun) (value : PyValue)
        (t : RefTable) (w : Wire),
      (∀ g ∈ pre, ∀ t₀ : RefTable, ∃ e' t₁, g value t₀ = (.error e', t₁) ∧ nonFatalErr e' = true) →
      (∀ t₀ : RefTable, ∃ t₁, f value t₀ = (.ok w, t₁)) →
      (unionScan (pre ++ f :: post) value t).1 = .ok w) := by
  refine ⟨?_, ?_, ?_⟩
  · intro fmts value
    induction fmts with
    | nil => intro t h; rfl
    | cons f rest ih =>
      intro t hall
      obtain ⟨e, t₁, heq, hnf⟩ := hall f (List.mem_cons_self f rest) t
      simp only [unionScan, heq, hnf, if_true]
      exact ih t₁ (fun g hg => hall g (List.mem_cons_of_mem f hg))
  · intro pre f post value
    induction pre with
    | nil =>
      intro t e hpre hf hfatal
      obtain ⟨t₁, heq⟩ := hf t
      simp only [List.nil_append, unionScan, heq, hfatal, Bool.false_eq_true, if_false]
    | cons g pre' ih =>
      intro t e hpre hf hfatal
      obtain ⟨e', t₁, heq, hnf⟩ := hpre g (List.mem_cons_self g pre') t
      simp only [List.cons_append, unionScan, heq, hnf, if_true]
      exact ih t₁ e (fun q hq => hpre q (List.mem_cons_of_mem g hq)) hf hfatal
  · intro pre f post value
    induction pre with
    | nil =>
      intro t w hpre hf
      obtain ⟨t₁, heq⟩ := hf t
      simp only [List.nil_append, unionScan, heq]
    | cons g pre' ih =>
      intro t w hpre hf
      obtain ⟨e', t₁, heq, hnf⟩ := hpre g (List.mem_cons_self g pre') t
      simp only [List.cons_append, unionScan, heq, hnf, if_true]
      exact ih t₁ w (fun q hq => hpre q (List.mem_cons_of_mem g hq)) hf

/-- Witness for C1 on three concrete unions: all-mismatch, a fatal
member after a mismatch, and a success after a mismatch. -/
theorem claim1_union_scan_witness :
    (unionScan [mismatchMember, mismatchMember] PyValue.none RefTable.init).1
      = .error (.typeError "cannot format this")
    ∧ (unionScan [mismatchMember, fatalMember, okMember] PyValue.none RefTable.init).1
      = .error (.keyError "boom")
    ∧ (unionScan [mismatchMember, okMember, fatalMember] PyValue.none RefTable.init).1
      = .ok .vnull := by
  have hmm : ∀ g ∈ [mismatchMember], ∀ t₀ : RefTable,
      ∃ e' t₁, g PyValue.none t₀ = (.error e', t₁) ∧ nonFatalErr e' = true := by
    intro g hg t₀
    rcases List.mem_cons.mp hg with rfl | hg'
    · exact ⟨.typeError "no match", t₀, rfl, rfl⟩
    · simp at hg'
  refine ⟨claim1_union_scan.1 [mismatchMember, mismatchMember] PyValue.none RefTable.init ?_,
    claim1_union_scan.2.1 [mismatchMember] fatalMember [okMember] PyValue.none RefTable.init
      (PyErr.keyError "boom") hmm (fun t₀ => ⟨t₀, rfl⟩) rfl,
    claim1_union_scan.2.2 [mismatchMember] okMember [fatalMember] PyValue.none RefTable.init
      Wire.vnull hmm (fun t₀ => ⟨t₀, rfl⟩)⟩
  intro f hf t₀
  rcases List.mem_cons.mp hf with rfl | hf'
  · exact ⟨.typeError "no match", t₀, rfl, rfl⟩
  · rcases List.mem_cons.mp hf' with rfl | hf''
    · exact ⟨.typeError "no match", t₀, rfl, rfl⟩
    · simp at hf''

/-! ### C6: unknown references fail the decode, contained to the request -/

/-- C6: decoding a Ref node whose handle is absent from the reference
table — in particular one whose handle was allocated and then released —
fails with `KeyError` (the spec's `UnknownReference` condition), and a
run request whose locals carry such a node is answered by an error
response built from that exception while the reference table and the
module table are left exactly as they were. -/
theorem claim6_unknown_reference (h id code : String) (t : RefTable)
    (hmiss : t.refs h = Option.none) :
    get_local (.wref h) t = .error (.keyError h)
    ∧ (∀ (v : PyValue) (t0 : RefTable),
        get_local (.wref (get_ref v t0).1) (del_ref (get_ref v t0).1 (get_ref v t0).2)
          = .error (.keyError (get_ref v t0).1))
    ∧ do_run ⟨id, "__main__", code, some [("x", .wref h)]⟩ ⟨initModules, t⟩
        = (.error id "KeyError" ("\x27" ++ h ++ "\x27"), ⟨initModules, t⟩) := by
  have hdec : get_local (.wref h) t = .error (.keyError h) := by
    simp [get_local, hmiss]
  refine ⟨hdec, ?_, ?_⟩
  · intro v t0
    simp [get_local, get_ref, del_ref]
  · have hl : get_locals (some [("x", Wire.wref h)]) t = .error (.keyError h) := by
      simp [get_locals, getLocalsAux, hdec]
    have hs : get_scope "__main__" initModules = .ok ("__main__", initModules) := rfl
    simp [do_run, hs, hl, excTypeName, excStr]

/-- Witness for C6 at the handle `1`, the empty initial table, and a run
request decoding that handle. -/
theorem claim6_unknown_reference_witness :
    get_local (.wref "1") RefTable.init = .error (.keyError "1")
    ∧ do_run ⟨"5", "__main__", "x", some [("x", .wref "1")]⟩ ⟨initModules, RefTable.init⟩
      = (.error "5" "KeyError" ("\x27" ++ "1" ++ "\x27"), ⟨initModules, RefTable.init⟩) := by
  obtain ⟨h1, _, h3⟩ := claim6_unknown_reference "1" "5" "x" RefTable.init rfl
  exact ⟨h1, h3⟩

/-! ### C7: scope name resolution -/

theorem modGet_modSet (key : String) (ns : PyNamespace) :
    ∀ ms : Modules, modGet key (modSet key ns ms) = some ns := by
  intro ms
  induction ms with
  | nil => simp [modGet, modSet, List.find?]
  | cons p rest ih =>
    obtain ⟨k, w⟩ := p
    by_cases hk : k = key
    · subst hk
      simp [modGet, modSet, List.find?]
    · simp [modGet, modSet, List.find?, hk] at ih ⊢
      exact ih

theorem scopesPath_ne_main (name : String) : scopesPath name ≠ "__main__" := by
  intro h
  have hd : (scopesPath name).data = "__main__.scopes.".data ++ name.data.drop 1 := rfl
  have h2 := congrArg List.length (congrArg String.data h)
  rw [hd, List.length_append, show "__main__.scopes.".data.length = 16 from rfl,
    show "__main__".data.length = 8 from rfl] at h2
  omega

/-- C7 counterexample: with the serve-time module table, resolving the
plain scope name `s` does not yield a shared default namespace — it
raises `KeyError`, because a non-private name is looked up verbatim in
`sys.modules`; and two registered non-private names resolve to two
different namespaces, not to a single shared one. -/
theorem claim7_counterexample :
    get_scope "s" initModules = .error (.keyError "s")
    ∧ get_scope "sys" initModules = .ok ("sys", initModules)
    ∧ get_scope "__main__" initModules = .ok ("__main__", initModules)
    ∧ modGet "sys" initModules ≠ modGet "__main__" initModules :=
  ⟨rfl, rfl, rfl, by decide⟩

/-- C7 (amended): a scope name carrying the private marker `@` is
translated to the reserved internal path `__main__.scopes.<rest>`
(distinct from the default module), its isolated namespace is created
empty and lazily on first access and persists — a second resolution
returns the same module key and creates nothing; any *other* scope name
is looked up verbatim in `sys.modules`, resolving to the namespace
registered under that exact name when present and raising `KeyError`
when absent (so distinct registered names yield their own distinct
namespaces rather than one shared default). -/
theorem claim7_get_scope (name : String) (mods : Modules) :
    (name.data.head? = some '@' →
      ∃ mods', get_scope name mods = .ok (scopesPath name, mods')
        ∧ scopesPath name ≠ "__main__"
        ∧ ((modGet (scopesPath name) mods).isSome → mods' = mods)
        ∧ (modGet (scopesPath name) mods = Option.none →
            modGet (scopesPath name) mods' = some [])
        ∧ get_scope name mods' = .ok (scopesPath name, mods'))
    ∧ (name.data.head? ≠ some '@' →
        ((modGet name mods).isSome → get_scope name mods = .ok (name, mods))
        ∧ (modGet name mods = Option.none → get_scope name mods = .error (.keyError name))) := by
  constructor
  · intro hat
    by_cases hpresent : (modGet (scopesPath name) mods).isSome
    · refine ⟨mods, ?_, scopesPath_ne_main _, fun _ => rfl, ?_, ?_⟩
      · simp [get_scope, hat, hpresent]
      · intro habs
        rw [habs] at hpresent
        simp at hpresent
      · simp [get_scope, hat, hpresent]
    · refine ⟨modSet (scopesPath name) [] mods, ?_, scopesPath_ne_main _, ?_, ?_, ?_⟩
      · simp [get_scope, hat, hpresent]
      · intro hp
        exact absurd hp hpresent
      · intro _
        exact modGet_modSet _ _ mods
      · have hs : (modGet (scopesPath name) (modSet (scopesPath name) [] mods)).isSome := by
          rw [modGet_modSet]
          rfl
        simp [get_scope, hat, hs]
  · intro hplain
    constructor
    · intro hp
      obtain ⟨ns, hns⟩ := Option.isSome_iff_exists.mp hp
      simp [get_scope, hplain, hns]
    · intro habs
      simp [get_scope, hplain, habs]

/-- Witness for C7 at the private name `@x`, the registered plain name
`sys`, and the absent plain name `s`, over the serve-time module
table. -/
theorem claim7_get_scope_witness :
    get_scope "sys" initModules = .ok ("sys", initModules)
    ∧ get_scope "s" initModules = .error (.keyError "s")
    ∧ (∃ mods', get_scope "@x" initModules = .ok (scopesPath "@x", mods')
      ∧ scopesPath "@x" ≠ "__main__"
      ∧ ((modGet (scopesPath "@x") initModules).isSome → mods' = initModules)
      ∧ (modGet (scopesPath "@x") initModules = Option.none →
          modGet (scopesPath "@x") mods' = some [])
      ∧ get_scope "@x" mods' = .ok (scopesPath "@x", mods')) :=
  ⟨((claim7_get_scope "sys" initModules).2 (by decide)).1 rfl,
   ((claim7_get_scope "s" initModules).2 (by decide)).2 rfl,
   (claim7_get_scope "@x" initModules).1 rfl⟩

/-! ### C8: the end-to-end run example -/

/-- C8 counterexample: the spec sends the example request with scope
`s`, but a non-private scope name is looked up verbatim in
`sys.modules`, so the request is answered by a `KeyError` error response
(with the state untouched) — not by the claimed result response. -/
theorem claim8_counterexample :
    do_run ⟨"2", "s", "jl.ret(1<<30)", Option.none⟩ ServerState.init
      = (.error "2" "KeyError" "\x27s\x27", ServerState.init)
    ∧ (do_run ⟨"2", "s", "jl.ret(1<<30)", Option.none⟩ ServerState.init).1
      ≠ .result "2" (some (.wint "1073741824")) :=
  ⟨rfl, by decide⟩

/-- C8 (amended): the example request produces exactly the claimed
result response — tag `result`, the echoed id `2`, and the BigInt node
with decimal payload `1073741824` for `1 << 30` — once its scope names a
`sys.modules` entry whose namespace binds the helper `jl`, e.g. the
server module `__main__` itself; the exchange leaves the server state
unchanged.  With the spec-given scope `s` the answer is the `KeyError`
error response of the counterexample. -/
theorem claim8_run_example :
    do_run ⟨"2", "__main__", "jl.ret(1<<30)", Option.none⟩ ServerState.init
      = (.result "2" (some (.wint "1073741824")), ServerState.init) := rfl

/-! ### C9: the pre-bound helper and the Result exit -/

theorem nsGet_nsSet_ne (key k : String) (v : PyValue) (hk : k ≠ key) :
    ∀ ns : PyNamespace, nsGet key (nsSet k v ns) = nsGet key ns := by
  have hb : (k == key) = false := beq_eq_false_iff_ne.mpr hk
  intro ns
  induction ns with
  | nil => simp [nsSet, nsGet, List.find?, hb]
  | cons p rest ih =>
    obtain ⟨k', w⟩ := p
    by_cases h1 : k' = k
    · subst h1
      calc nsGet key (nsSet k' v ((k', w) :: rest))
          = nsGet key ((k', v) :: rest) := by simp [nsSet]
        _ = nsGet key rest := by simp [nsGet, List.find?, hb]
        _ = nsGet key ((k', w) :: rest) := by simp [nsGet, List.find?, hb]
    · have h1b : (k' == k) = false := beq_eq_false_iff_ne.mpr h1
      by_cases h2 : k' = key
      · subst h2
        calc nsGet k' (nsSet k v ((k', w) :: rest))
            = nsGet k' ((k', w) :: nsSet k v rest) := by simp [nsSet, h1b]
          _ = some w := by simp [nsGet, List.find?]
          _ = nsGet k' ((k', w) :: rest) := by simp [nsGet, List.find?]
      · have h2b : (k' == key) = false := beq_eq_false_iff_ne.mpr h2
        calc nsGet key (nsSet k v ((k', w) :: rest))
            = nsGet key ((k', w) :: nsSet k v rest) := by simp [nsSet, h1b]
          _ = nsGet key (nsSet k v rest) := by simp [nsGet, List.find?, h2b]
          _ = nsGet key rest := ih
          _ = nsGet key ((k', w) :: rest) := by simp [nsGet, List.find?, h2b]

theorem getLocalsAux_nsGet_jl (t : RefTable) :
    ∀ (m : List (String × Wire)) (ans ns : PyNamespace),
      getLocalsAux t m ans = .ok ns → (∀ p ∈ m, p.1 ≠ "jl") →
      nsGet "jl" ns = nsGet "jl" ans := by
  intro m
  induction m with
  | nil =>
    intro ans ns h _
    simp only [getLocalsAux] at h
    cases h
    rfl
  | cons p rest ih =>
    intro ans ns h hne
    obtain ⟨k, w⟩ := p
    simp only [getLocalsAux] at h
    match heq : get_local w t with
    | .ok v =>
      rw [heq] at h
      have hrec := ih (nsSet k v ans) ns h (fun q hq => hne q (List.mem_cons_of_mem _ hq))
      rw [hrec]
      exact nsGet_nsSet_ne "jl" k v (hne (k, w) (List.mem_cons_self _ _)) ans
    | .error e =>
      rw [heq] at h
      cases h

/-- C9 counterexample: a run request whose locals field is null gets no
locals mapping at all (`get_locals(None)` is `None`), so code executed
in a fresh private scope does not see any helper named `jl` and fails
with `NameError` — the helper is not given to *every* run request. -/
theorem claim9_counterexample :
    (do_run ⟨"9", "@x", "jl.ret(0)", Option.none⟩ ServerState.init).1
      = .error "9" "NameError" "name \x27jl\x27 is not defined" := rfl

/-- C9 (amended): when a run request carries a non-null locals mapping,
the locals dict handed to `exec` binds the name `jl` to the pre-bound
helper module (bound first, so only a caller-supplied local named `jl`
could shadow it — excluded here); the helper exposes the
return-with-value operation, which formats its argument (shown for the
default `any` formatter spec) and raises the `Result` exception instead
of returning — a non-local exit; and `do_run` converts exactly that
exception into a successful result response carrying the payload. -/
theorem claim9_ret_helper :
    (∀ (m : List (String × Wire)) (t : RefTable) (ns : PyNamespace),
      get_locals (some m) t = .ok (some ns) →
      (∀ p ∈ m, p.1 ≠ "jl") →
      nsGet "jl" ns = some PyValue.jlModule)
    ∧ (∀ (val : PyValue) (t : RefTable),
      ∃ w t', any_format val t = (.ok w, t') ∧ ret val t = (.error (.result w), t'))
    ∧ (∀ (msg : RunMsg) (st : ServerState) (key : String) (mods' : Modules)
        (lcls : Option PyNamespace) (w : Wire) (t' : RefTable),
      get_scope msg.scope st.modules = .ok (key, mods') →
      get_locals msg.locals st.table = .ok lcls →
      execCode msg.code (scopeDict key mods') lcls st.table = (.error (.result w), t') →
      do_run msg st = (.result msg.id (some w), ⟨mods', t'⟩)) := by
  refine ⟨?_, ?_, ?_⟩
  · intro m t ns h hne
    simp only [get_locals] at h
    match haux : getLocalsAux t m [("jl", PyValue.jlModule)] with
    | .ok ns' =>
      rw [haux] at h
      cases h
      rw [getLocalsAux_nsGet_jl t m _ _ haux hne]
      rfl
    | .error e =>
      rw [haux] at h
      cases h
  · intro val t
    obtain ⟨w, t', h⟩ := any_format_total val t
    exact ⟨w, t', h, by simp [ret, h]⟩
  · intro msg st key mods' lcls w t' hscope hlocals hexec
    simp [do_run, hscope, hlocals, hexec]

/-- Witness for C9: a locals mapping with one entry binds `jl` to the
helper; `ret` of `None` raises `Result` carrying the null node; and the
request running `jl.ret()` in scope `__main__` is answered by a result
response with that payload. -/
theorem claim9_ret_helper_witness :
    nsGet "jl" [("jl", PyValue.jlModule), ("x", PyValue.int 1)] = some PyValue.jlModule
    ∧ (∃ w t', any_format PyValue.none RefTable.init = (.ok w, t')
        ∧ ret PyValue.none RefTable.init = (.error (.result w), t'))
    ∧ do_run ⟨"7", "__main__", "jl.ret()", Option.none⟩ ServerState.init
      = (.result "7" (some .vnull), ⟨initModules, RefTable.init⟩) :=
  ⟨claim9_ret_helper.1 [("x", Wire.vint 1)] RefTable.init
      [("jl", PyValue.jlModule), ("x", PyValue.int 1)] rfl (by decide),
   claim9_ret_helper.2.1 PyValue.none RefTable.init,
   claim9_ret_helper.2.2 ⟨"7", "__main__", "jl.ret()", Option.none⟩ ServerState.init
      "__main__" initModules Option.none Wire.vnull RefTable.init rfl rfl rfl⟩

end PyRun
